/-
  Verification of the cross-process coordination primitives of exp_utils
  (src/utils.py): the redis-backed FIFO queue RedisQueue, the shared
  dictionary RedisDict, the process-wide singleton decorator, and the
  pickle serialisation layer they rely on.

  Python values are modelled by the inductive type PyVal.  The pickle codec
  itself is the standard library, not code of this repository, so it is
  modelled from the spec (spec 4.1) as an injective self-delimiting token
  stream with total decode.  Redis list state and hash state are modelled
  as explicit stores threaded through each operation, translated line by
  line from the methods of src/utils.py.
-/
import Mathlib

/-- One opcode/token of a serialised payload.  A payload (the model of the
`bytes` object returned by `pickle.dumps`) is a list of tokens. -/
inductive Tok where
  | tag (n : Nat)
  | int (i : Int)
  | str (s : String)
  deriving DecidableEq

/-- The model of a Python `bytes` payload as stored in redis. -/
abbrev Payload := List Tok

/-- Model of the Python values the repository passes through pickle:
primitives, strings, bytes, nested sequences and string-keyed mappings,
plus `resource`, standing for a non-picklable object such as an open
file handle (pickle.dumps raises TypeError on those). -/
inductive PyVal where
  | none
  | bool (b : Bool)
  | int (i : Int)
  | str (s : String)
  | bytes (bs : Payload)
  | list (xs : List PyVal)
  | dict (kvs : List (String × PyVal))
  | resource (id : Nat)

/-- Errors an operation of src/utils.py can surface.  `typeError`,
`attributeError` and `unpicklingError` are the Python built-ins the source
actually lets escape.  Modelled from the spec: the constructors
`queueEmptyError`, `queueTimeoutError` and `notConfiguredError` are the
typed error taxonomy of spec section 7 (QueueEmptyError, QueueTimeoutError,
NotConfiguredError); no such classes exist anywhere in src/, and they are
included only so that claims mentioning them can be stated and compared
with what the code raises. -/
inductive PyErr where
  | typeError (msg : String)
  | attributeError (msg : String)
  | unpicklingError
  | queueEmptyError
  | queueTimeoutError
  | notConfiguredError
  deriving DecidableEq

mutual

/-- Modelled from the spec: `pickle.dumps` (spec 4.1 `encode`), the codec
used by RedisQueue.put (utils.py line 123) and RedisDict.set (line 171).
The standard-library pickle module is not part of this repository; the
model is a self-describing tagged token stream.  Encoding fails with
TypeError exactly when the value contains a non-picklable resource,
mirroring `pickle.dumps` on an open handle. -/
def pickle_dumps : PyVal → Except PyErr Payload
  | PyVal.none => Except.ok [Tok.tag 0]
  | PyVal.bool b => Except.ok [Tok.tag 1, Tok.tag (if b then 1 else 0)]
  | PyVal.int i => Except.ok [Tok.tag 2, Tok.int i]
  | PyVal.str s => Except.ok [Tok.tag 3, Tok.str s]
  | PyVal.bytes bs => Except.ok (Tok.tag 4 :: Tok.tag bs.length :: bs)
  | PyVal.list xs =>
    match dumpsList xs with
    | Except.ok ts => Except.ok (Tok.tag 5 :: Tok.tag xs.length :: ts)
    | Except.error e => Except.error e
  | PyVal.dict kvs =>
    match dumpsPairs kvs with
    | Except.ok ts => Except.ok (Tok.tag 6 :: Tok.tag kvs.length :: ts)
    | Except.error e => Except.error e
  | PyVal.resource _ => Except.error (PyErr.typeError "cannot pickle resource object")

def dumpsList : List PyVal → Except PyErr Payload
  | [] => Except.ok []
  | v :: vs =>
    match pickle_dumps v, dumpsList vs with
    | Except.ok t, Except.ok ts => Except.ok (t ++ ts)
    | Except.error e, _ => Except.error e
    | _, Except.error e => Except.error e

def dumpsPairs : List (String × PyVal) → Except PyErr Payload
  | [] => Except.ok []
  | (k, v) :: ps =>
    match pickle_dumps v, dumpsPairs ps with
    | Except.ok t, Except.ok ts => Except.ok (Tok.str k :: t ++ ts)
    | Except.error e, _ => Except.error e
    | _, Except.error e => Except.error e

end

mutual

/-- Node-count measure on values, used as decoder fuel bound. -/
def sizeV : PyVal → Nat
  | PyVal.list xs => 1 + sizeVs xs
  | PyVal.dict kvs => 1 + sizePs kvs
  | _ => 1

def sizeVs : List PyVal → Nat
  | [] => 1
  | v :: vs => 1 + sizeV v + sizeVs vs

def sizePs : List (String × PyVal) → Nat
  | [] => 1
  | (_, v) :: ps => 1 + sizeV v + sizePs ps

end

mutual

/-- Modelled from the spec: the decoding half of the codec (`pickle.loads`
on well-formed bytes, spec 4.1 `decode`), as a fuel-indexed parser that
returns the decoded value together with the unconsumed suffix. -/
def decodeVal : Nat → List Tok → Option (PyVal × List Tok)
  | 0, _ => Option.none
  | f + 1, toks =>
    match toks with
    | Tok.tag 0 :: rest => some (PyVal.none, rest)
    | Tok.tag 1 :: Tok.tag b :: rest => some (PyVal.bool (b == 1), rest)
    | Tok.tag 2 :: Tok.int i :: rest => some (PyVal.int i, rest)
    | Tok.tag 3 :: Tok.str s :: rest => some (PyVal.str s, rest)
    | Tok.tag 4 :: Tok.tag n :: rest =>
      if n ≤ rest.length then some (PyVal.bytes (rest.take n), rest.drop n)
      else Option.none
    | Tok.tag 5 :: Tok.tag n :: rest =>
      match decodeVals f n rest with
      | some (xs, r) => some (PyVal.list xs, r)
      | Option.none => Option.none
    | Tok.tag 6 :: Tok.tag n :: rest =>
      match decodePairs f n rest with
      | some (ps, r) => some (PyVal.dict ps, r)
      | Option.none => Option.none
    | _ => Option.none

def decodeVals : Nat → Nat → List Tok → Option (List PyVal × List Tok)
  | 0, _, _ => Option.none
  | _ + 1, 0, rest => some ([], rest)
  | f + 1, n + 1, toks =>
    match decodeVal f toks with
    | some (v, r) =>
      match decodeVals f n r with
      | some (vs, r2) => some (v :: vs, r2)
      | Option.none => Option.none
    | Option.none => Option.none

def decodePairs : Nat → Nat → List Tok → Option (List (String × PyVal) × List Tok)
  | 0, _, _ => Option.none
  | _ + 1, 0, rest => some ([], rest)
  | f + 1, n + 1, toks =>
    match toks with
    | Tok.str k :: rest =>
      match decodeVal f rest with
      | some (v, r) =>
        match decodePairs f n r with
        | some (ps, r2) => some ((k, v) :: ps, r2)
        | Option.none => Option.none
      | Option.none => Option.none
    | _ => Option.none

end

/-- Modelled from the spec: `pickle.loads` on a complete payload, the call
made by RedisQueue.get (utils.py line 132) and RedisDict.get (line 177).
Fails (UnpicklingError) when the bytes are malformed or truncated. -/
def pickle_loads (p : Payload) : Option PyVal :=
  match decodeVal (2 * p.length) p with
  | some (v, []) => some v
  | _ => Option.none

/-- Python `pickle.loads(element)` where `element` may be Python `None`:
this is exactly what RedisQueue.get does at utils.py line 132 with the
result of `rpop`/`brpop`-subscript.  Passing None raises
`TypeError: a bytes-like object is required, not NoneType`. -/
def loads_py : Option Payload → Except PyErr PyVal
  | Option.none => Except.error (PyErr.typeError "a bytes-like object is required, not NoneType")
  | some p =>
    match pickle_loads p with
    | some v => Except.ok v
    | Option.none => Except.error PyErr.unpicklingError

/-- The redis list keyspace: every key names a list of payloads, head
(left end) first.  Distinct queue handles that share a key address the
same list. -/
abbrev Store := String → List Payload

/-- redis LPUSH: insert the payload at the head of the list at `k`;
returns the updated store and the new length of that list. -/
def Store.lpush (s : Store) (k : String) (v : Payload) : Store × Nat :=
  (fun k2 => if k2 = k then v :: s k2 else s k2, (s k).length + 1)

/-- redis RPOP: remove and return the tail element of the list at `k`,
or None when the list is empty. -/
def Store.rpop (s : Store) (k : String) : Option Payload × Store :=
  match (s k).getLast? with
  | Option.none => (Option.none, s)
  | some v => (some v, fun k2 => if k2 = k then (s k2).dropLast else s k2)

/-- redis LLEN. -/
def Store.llen (s : Store) (k : String) : Nat := (s k).length

/-- redis LINDEX with index -1: read the tail element without removal. -/
def Store.lindex_last (s : Store) (k : String) : Option Payload := (s k).getLast?

/-- A RedisQueue handle (utils.py lines 90-138): it owns only the key; the
queue contents live in the store.  The connection parameters play no role
in the list semantics and are omitted. -/
structure RedisQueue where
  key : String

/-- `RedisQueue.size` (utils.py lines 116-117): `llen` of the key. -/
def RedisQueue.size (q : RedisQueue) (s : Store) : Nat :=
  Store.llen s q.key

/-- `RedisQueue.qsize` (utils.py lines 113-114): alias for size. -/
def RedisQueue.qsize (q : RedisQueue) (s : Store) : Nat :=
  q.size s

/-- `RedisQueue.is_empty` (utils.py lines 119-120). -/
def RedisQueue.is_empty (q : RedisQueue) (s : Store) : Bool :=
  q.size s == 0

/-- `RedisQueue.put` (utils.py lines 122-124):
`v = pickle.dumps(element); return self.r.lpush(self.key, v)`.
The dump happens before the store is touched, so an encoding failure
propagates with the store unchanged; on success the lpush return value
(the new list length) is returned. -/
def RedisQueue.put (q : RedisQueue) (s : Store) (element : PyVal) : Except PyErr Nat × Store :=
  match pickle_dumps element with
  | Except.error e => (Except.error e, s)
  | Except.ok v =>
    let r := Store.lpush s q.key v
    (Except.ok r.2, r.1)

/-- Outcome of a RedisQueue.get call: a decoded value, a raised error, or
an indefinite block (brpop with timeout None or 0 on a queue that stays
empty). -/
inductive GetResult where
  | ok (v : PyVal)
  | err (e : PyErr)
  | blocks

/-- `RedisQueue.get` (utils.py lines 126-133).  Non-blocking: `rpop`, then
`pickle.loads` on the result (TypeError when the queue was empty and rpop
returned None).  Blocking: `brpop(key, timeout)`, then `element[1]`, then
`pickle.loads`.  Because the model is closed-world (no concurrent
producer), brpop on an empty list returns None once a positive timeout
expires — exercising exactly the "queue remains empty for the full
timeout" scenario — and blocks forever when the timeout is None (redis-py
sends 0) or 0; `None[1]` then raises TypeError. -/
def RedisQueue.get (q : RedisQueue) (s : Store) (is_blocking : Bool) (timeout : Option Nat) :
    GetResult × Store :=
  if is_blocking then
    match (s q.key).getLast? with
    | some v =>
      let s2 : Store := fun k2 => if k2 = q.key then (s k2).dropLast else s k2
      match loads_py (some v) with
      | Except.ok u => (GetResult.ok u, s2)
      | Except.error e => (GetResult.err e, s2)
    | Option.none =>
      match timeout with
      | Option.none => (GetResult.blocks, s)
      | some 0 => (GetResult.blocks, s)
      | some (_ + 1) =>
        (GetResult.err (PyErr.typeError "NoneType object is not subscriptable"), s)
  else
    let r := Store.rpop s q.key
    match loads_py r.1 with
    | Except.ok u => (GetResult.ok u, r.2)
    | Except.error e => (GetResult.err e, r.2)

/-- `RedisQueue.get_without_pop` (utils.py lines 135-138): `None` when
`is_empty()`, otherwise the raw `lindex(key, -1)` bytes — returned
undecoded, wrapped as the Python bytes value they are. -/
def RedisQueue.get_without_pop (q : RedisQueue) (s : Store) : PyVal :=
  if q.is_empty s then PyVal.none
  else
    match Store.lindex_last s q.key with
    | some p => PyVal.bytes p
    | Option.none => PyVal.none

/-- The redis hash keyspace used by RedisDict: each (optional) key names a
hash, modelled as an association list from field name to payload.  The key
is optional because RedisDict.exp_key is Python None until set_db runs. -/
abbrev HStore := Option String → List (String × Payload)

/-- redis HEXISTS/HGET combined: look a field up in one hash. -/
def hlookup (l : List (String × Payload)) (field : String) : Option Payload :=
  match l with
  | [] => Option.none
  | (f, p) :: rest => if f = field then some p else hlookup rest field

/-- redis HSET on one hash: replace the field's payload, or append the
field when it is new. -/
def hset_assoc (l : List (String × Payload)) (field : String) (p : Payload) :
    List (String × Payload) :=
  match l with
  | [] => [(field, p)]
  | (f, q) :: rest =>
    if f = field then (f, p) :: rest else (f, q) :: hset_assoc rest field p

/-- The connection object `self.r` of RedisDict (utils.py line 159); the
server state itself is the HStore threaded separately. -/
structure RedisConn where
  host : String
  password : String
  port : Nat

/-- The message of the AttributeError Python raises when a RedisDict
method touches `self.r` before set_db has created it. -/
def attr_r_msg : String := "RedisDict object has no attribute r"

/-- `RedisDict` instance state (utils.py lines 145-159).  `__init__` sets
only `self.exp_key = None`; the attribute `r` does not exist until set_db
assigns it, which `r : Option RedisConn` models (`Option.none` = attribute
absent). -/
structure RedisDict where
  exp_key : Option String
  r : Option RedisConn

/-- `RedisDict.__init__` (utils.py lines 151-152). -/
def RedisDict.init : RedisDict :=
  { exp_key := Option.none, r := Option.none }

/-- `RedisDict.is_set` (utils.py lines 154-155). -/
def RedisDict.is_set (d : RedisDict) : Bool :=
  d.exp_key.isSome

/-- `RedisDict.set_db` (utils.py lines 157-159): record the experiment key
and create the connection (port fixed at 6379 in the source). -/
def RedisDict.set_db (d : RedisDict) (exp_key : String) (host : String) (password : String) :
    RedisDict :=
  { d with exp_key := some exp_key, r := some { host := host, password := password, port := 6379 } }

/-- How Python renders `self.exp_key` inside the diagnostic f-string of
RedisDict.get (utils.py line 179). -/
def exp_key_repr : Option String → String
  | Option.none => "None"
  | some k => k

/-- `RedisDict.set` (utils.py lines 169-172): read `self.exp_key`, then
`pickle.dumps(value)`, then `self.r.hset(key, field, pickled_value)`.
The dump precedes the attribute access and the store write, so an
encoding failure leaves the store untouched, and an unconfigured dict
fails with AttributeError when it reaches `self.r`. -/
def RedisDict.set (d : RedisDict) (h : HStore) (field : String) (value : PyVal) :
    Except PyErr Unit × HStore :=
  let key := d.exp_key
  match pickle_dumps value with
  | Except.error e => (Except.error e, h)
  | Except.ok pv =>
    match d.r with
    | Option.none => (Except.error (PyErr.attributeError attr_r_msg), h)
    | some _ =>
      (Except.ok (), fun k2 => if k2 = key then hset_assoc (h k2) field pv else h k2)

/-- `RedisDict.get` (utils.py lines 174-180): `self.r.hexists(self.exp_key,
field)` — AttributeError when `r` is absent; when the field exists,
`pickle.loads(self.r.hget(...))`; otherwise print the diagnostic f-string
and return None.  The hexists test and the hget read of the same
association list are collapsed into one lookup; the strings printed to
stdout are returned alongside the value. -/
def RedisDict.get (d : RedisDict) (h : HStore) (field : String) :
    Except PyErr (PyVal × List String) :=
  match d.r with
  | Option.none => Except.error (PyErr.attributeError attr_r_msg)
  | some _ =>
    match hlookup (h d.exp_key) field with
    | some pv =>
      match pickle_loads pv with
      | some v => Except.ok (v, [])
      | Option.none => Except.error PyErr.unpicklingError
    | Option.none =>
      Except.ok (PyVal.none,
        [field ++ " does not exist in Redis with the experiment " ++ exp_key_repr d.exp_key])

/-- Decode every payload of a hash, as the loop of get_dict does. -/
def loads_all : List (String × Payload) → Except PyErr (List (String × PyVal))
  | [] => Except.ok []
  | (f, p) :: rest =>
    match pickle_loads p with
    | some v =>
      match loads_all rest with
      | Except.ok out => Except.ok ((f, v) :: out)
      | Except.error e => Except.error e
    | Option.none => Except.error PyErr.unpicklingError

/-- `RedisDict.get_dict` (utils.py lines 161-167): `self.r.hgetall(key)` —
AttributeError when `r` is absent — then unpickle every value. -/
def RedisDict.get_dict (d : RedisDict) (h : HStore) :
    Except PyErr (List (String × PyVal)) :=
  match d.r with
  | Option.none => Except.error (PyErr.attributeError attr_r_msg)
  | some _ => loads_all (h d.exp_key)

/-- The cache lookup of the `singleton` decorator (utils.py lines 29-39):
`get_instance` builds the instance on the first call and returns the
cached one afterwards.  The per-class `instances` dict is modelled as the
optional cached instance. -/
def get_instance {α : Type} (mk : Unit → α) (instances : Option α) : α × Option α :=
  match instances with
  | Option.none =>
    let i := mk ()
    (i, some i)
  | some i => (i, some i)

/-- Two successive acquisitions of a singleton-decorated class against the
same (initially empty) cache, returning the pair of handles.  In the
source the decorator itself performs the first `get_instance()` call at
decoration time and every later mention of the class name denotes its
result. -/
def acquireTwice {α : Type} (mk : Unit → α) : α × α :=
  let r1 := get_instance mk Option.none
  let r2 := get_instance mk r1.2
  (r1.1, r2.1)

mutual

/-- Decoding a successful encoding, with any suffix appended, recovers the
value and the suffix, given enough fuel. -/
theorem decode_dumps : ∀ (v : PyVal) (ts rest : List Tok) (f : Nat),
    pickle_dumps v = Except.ok ts → sizeV v ≤ f →
    decodeVal f (ts ++ rest) = some (v, rest)
  | PyVal.none, ts, rest, f, hok, hf => by
    simp [pickle_dumps] at hok
    subst hok
    have h1 : 1 ≤ f := by simpa [sizeV] using hf
    obtain ⟨g, rfl⟩ : ∃ g, f = g + 1 := ⟨f - 1, by omega⟩
    simp [decodeVal]
  | PyVal.bool b, ts, rest, f, hok, hf => by
    simp [pickle_dumps] at hok
    subst hok
    have h1 : 1 ≤ f := by simpa [sizeV] using hf
    obtain ⟨g, rfl⟩ : ∃ g, f = g + 1 := ⟨f - 1, by omega⟩
    cases b <;> simp [decodeVal]
  | PyVal.int i, ts, rest, f, hok, hf => by
    simp [pickle_dumps] at hok
    subst hok
    have h1 : 1 ≤ f := by simpa [sizeV] using hf
    obtain ⟨g, rfl⟩ : ∃ g, f = g + 1 := ⟨f - 1, by omega⟩
    simp [decodeVal]
  | PyVal.str s, ts, rest, f, hok, hf => by
    simp [pickle_dumps] at hok
    subst hok
    have h1 : 1 ≤ f := by simpa [sizeV] using hf
    obtain ⟨g, rfl⟩ : ∃ g, f = g + 1 := ⟨f - 1, by omega⟩
    simp [decodeVal]
  | PyVal.bytes bs, ts, rest, f, hok, hf => by
    simp [pickle_dumps] at hok
    subst hok
    have h1 : 1 ≤ f := by simpa [sizeV] using hf
    obtain ⟨g, rfl⟩ : ∃ g, f = g + 1 := ⟨f - 1, by omega⟩
    simp [decodeVal, List.take_left, List.drop_left]
  | PyVal.list xs, ts, rest, f, hok, hf => by
    cases hxs : dumpsList xs with
    | error e => simp [pickle_dumps, hxs] at hok
    | ok ts2 =>
      simp [pickle_dumps, hxs] at hok
      subst hok
      have h1 : 1 + sizeVs xs ≤ f := by simpa [sizeV] using hf
      obtain ⟨g, rfl⟩ : ∃ g, f = g + 1 := ⟨f - 1, by omega⟩
      have ih := decode_dumpsList xs ts2 rest g hxs (by omega)
      simp [decodeVal, ih]
  | PyVal.dict kvs, ts, rest, f, hok, hf => by
    cases hks : dumpsPairs kvs with
    | error e => simp [pickle_dumps, hks] at hok
    | ok ts2 =>
      simp [pickle_dumps, hks] at hok
      subst hok
      have h1 : 1 + sizePs kvs ≤ f := by simpa [sizeV] using hf
      obtain ⟨g, rfl⟩ : ∃ g, f = g + 1 := ⟨f - 1, by omega⟩
      have ih := decode_dumpsPairs kvs ts2 rest g hks (by omega)
      simp [decodeVal, ih]
  | PyVal.resource n, ts, rest, f, hok, hf => by
    simp [pickle_dumps] at hok
termination_by v ts rest f hok hf => sizeV v
decreasing_by
  all_goals simp [sizeV, sizeVs, sizePs]
  all_goals omega

/-- Same roundtrip property for a block of consecutive list elements. -/
theorem decode_dumpsList : ∀ (xs : List PyVal) (ts rest : List Tok) (f : Nat),
    dumpsList xs = Except.ok ts → sizeVs xs ≤ f →
    decodeVals f xs.length (ts ++ rest) = some (xs, rest)
  | [], ts, rest, f, hok, hf => by
    simp [dumpsList] at hok
    subst hok
    have h1 : 1 ≤ f := by simpa [sizeVs] using hf
    obtain ⟨g, rfl⟩ : ∃ g, f = g + 1 := ⟨f - 1, by omega⟩
    simp [decodeVals]
  | v :: vs, ts, rest, f, hok, hf => by
    cases hv : pickle_dumps v with
    | error e => simp [dumpsList, hv] at hok
    | ok tv =>
      cases hvs : dumpsList vs with
      | error e => simp [dumpsList, hv, hvs] at hok
      | ok tvs =>
        simp [dumpsList, hv, hvs] at hok
        subst hok
        have h1 : 1 + sizeV v + sizeVs vs ≤ f := by simpa [sizeVs] using hf
        obtain ⟨g, rfl⟩ : ∃ g, f = g + 1 := ⟨f - 1, by omega⟩
        have ih1 := decode_dumps v tv (tvs ++ rest) g hv (by omega)
        have ih2 := decode_dumpsList vs tvs rest g hvs (by omega)
        simp [decodeVals, List.append_assoc, ih1, ih2]
termination_by xs ts rest f hok hf => sizeVs xs
decreasing_by
  all_goals simp [sizeV, sizeVs, sizePs]
  all_goals omega

/-- Same roundtrip property for a block of consecutive hash pairs. -/
theorem decode_dumpsPairs : ∀ (ps : List (String × PyVal)) (ts rest : List Tok) (f : Nat),
    dumpsPairs ps = Except.ok ts → sizePs ps ≤ f →
    decodePairs f ps.length (ts ++ rest) = some (ps, rest)
  | [], ts, rest, f, hok, hf => by
    simp [dumpsPairs] at hok
    subst hok
    have h1 : 1 ≤ f := by simpa [sizePs] using hf
    obtain ⟨g, rfl⟩ : ∃ g, f = g + 1 := ⟨f - 1, by omega⟩
    simp [decodePairs]
  | (k, v) :: ps, ts, rest, f, hok, hf => by
    cases hv : pickle_dumps v with
    | error e => simp [dumpsPairs, hv] at hok
    | ok tv =>
      cases hps : dumpsPairs ps with
      | error e => simp [dumpsPairs, hv, hps] at hok
      | ok tps =>
        simp [dumpsPairs, hv, hps] at hok
        subst hok
        have h1 : 1 + sizeV v + sizePs ps ≤ f := by simpa [sizePs] using hf
        obtain ⟨g, rfl⟩ : ∃ g, f = g + 1 := ⟨f - 1, by omega⟩
        have ih1 := decode_dumps v tv (tps ++ rest) g hv (by omega)
        have ih2 := decode_dumpsPairs ps tps rest g hps (by omega)
        simp [decodePairs, List.append_assoc, ih1, ih2]
termination_by ps ts rest f hok hf => sizePs ps
decreasing_by
  all_goals simp [sizeV, sizeVs, sizePs]
  all_goals omega

end

mutual

/-- A successful encoding carries at least (sizeV v + 1) / 2 tokens, so
2 * length is enough decoder fuel. -/
theorem dumps_size : ∀ (v : PyVal) (ts : List Tok),
    pickle_dumps v = Except.ok ts → sizeV v + 1 ≤ 2 * ts.length
  | PyVal.none, ts, hok => by
    simp [pickle_dumps] at hok
    subst hok
    simp [sizeV]
  | PyVal.bool b, ts, hok => by
    simp [pickle_dumps] at hok
    subst hok
    simp [sizeV]
  | PyVal.int i, ts, hok => by
    simp [pickle_dumps] at hok
    subst hok
    simp [sizeV]
  | PyVal.str s, ts, hok => by
    simp [pickle_dumps] at hok
    subst hok
    simp [sizeV]
  | PyVal.bytes bs, ts, hok => by
    simp [pickle_dumps] at hok
    subst hok
    simp [sizeV]
  | PyVal.list xs, ts, hok => by
    cases hxs : dumpsList xs with
    | error e => simp [pickle_dumps, hxs] at hok
    | ok ts2 =>
      simp [pickle_dumps, hxs] at hok
      subst hok
      have ih := dumpsList_size xs ts2 hxs
      simp [sizeV]
      omega
  | PyVal.dict kvs, ts, hok => by
    cases hks : dumpsPairs kvs with
    | error e => simp [pickle_dumps, hks] at hok
    | ok ts2 =>
      simp [pickle_dumps, hks] at hok
      subst hok
      have ih := dumpsPairs_size kvs ts2 hks
      simp [sizeV]
      omega
  | PyVal.resource n, ts, hok => by
    simp [pickle_dumps] at hok
termination_by v ts hok => sizeV v
decreasing_by
  all_goals simp [sizeV, sizeVs, sizePs]
  all_goals omega

/-- Token-count bound for an encoded block of list elements. -/
theorem dumpsList_size : ∀ (xs : List PyVal) (ts : List Tok),
    dumpsList xs = Except.ok ts → sizeVs xs ≤ 2 * ts.length + 1
  | [], ts, hok => by
    simp [dumpsList] at hok
    subst hok
    simp [sizeVs]
  | v :: vs, ts, hok => by
    cases hv : pickle_dumps v with
    | error e => simp [dumpsList, hv] at hok
    | ok tv =>
      cases hvs : dumpsList vs with
      | error e => simp [dumpsList, hv, hvs] at hok
      | ok tvs =>
        simp [dumpsList, hv, hvs] at hok
        subst hok
        have ih1 := dumps_size v tv hv
        have ih2 := dumpsList_size vs tvs hvs
        simp [sizeVs]
        omega
termination_by xs ts hok => sizeVs xs
decreasing_by
  all_goals simp [sizeV, sizeVs, sizePs]
  all_goals omega

/-- Token-count bound for an encoded block of hash pairs. -/
theorem dumpsPairs_size : ∀ (ps : List (String × PyVal)) (ts : List Tok),
    dumpsPairs ps = Except.ok ts → sizePs ps ≤ 2 * ts.length + 1
  | [], ts, hok => by
    simp [dumpsPairs] at hok
    subst hok
    simp [sizePs]
  | (k, v) :: ps, ts, hok => by
    cases hv : pickle_dumps v with
    | error e => simp [dumpsPairs, hv] at hok
    | ok tv =>
      cases hps : dumpsPairs ps with
      | error e => simp [dumpsPairs, hv, hps] at hok
      | ok tps =>
        simp [dumpsPairs, hv, hps] at hok
        subst hok
        have ih1 := dumps_size v tv hv
        have ih2 := dumpsPairs_size ps tps hps
        simp [sizePs]
        omega
termination_by ps ts hok => sizePs ps
decreasing_by
  all_goals simp [sizeV, sizeVs, sizePs]
  all_goals omega

end

/-- The codec round-trip: `pickle.loads` inverts every successful
`pickle.dumps`. -/
theorem loads_dumps (v : PyVal) (ts : List Tok) (hok : pickle_dumps v = Except.ok ts) :
    pickle_loads ts = some v := by
  have h1 := dumps_size v ts hok
  have h2 := decode_dumps v ts [] (2 * ts.length) hok (by omega)
  rw [List.append_nil] at h2
  simp [pickle_loads, h2]

/-- Looking a field up right after HSET of that field yields the stored
payload. -/
theorem hlookup_hset_assoc (l : List (String × Payload)) (field : String) (p : Payload) :
    hlookup (hset_assoc l field p) field = some p := by
  induction l with
  | nil => simp [hset_assoc, hlookup]
  | cons kv rest ih =>
    obtain ⟨f, q⟩ := kv
    by_cases hf : f = field
    · subst hf
      simp [hset_assoc, hlookup]
    · simp [hset_assoc, hlookup, hf, ih]

/-- C2: for every value of a shape the serialization codec supports — that
is, every value pickle.dumps encodes successfully — decoding the encoding
yields an equal value: decode(encode(v)) == v. -/
theorem C2_codec_roundtrip (v : PyVal) (p : Payload) (h : pickle_dumps v = Except.ok p) :
    pickle_loads p = some v :=
  loads_dumps v p h

/-- C2 witness: the round trip at a concrete nested mapping holding a
sequence of primitives. -/
theorem C2_codec_roundtrip_witness :
    pickle_dumps (PyVal.dict [("hi", PyVal.list [PyVal.int 1, PyVal.int 2])]) =
      Except.ok [Tok.tag 6, Tok.tag 1, Tok.str "hi", Tok.tag 5, Tok.tag 2,
        Tok.tag 2, Tok.int 1, Tok.tag 2, Tok.int 2] ∧
    pickle_loads [Tok.tag 6, Tok.tag 1, Tok.str "hi", Tok.tag 5, Tok.tag 2,
        Tok.tag 2, Tok.int 1, Tok.tag 2, Tok.int 2] =
      some (PyVal.dict [("hi", PyVal.list [PyVal.int 1, PyVal.int 2])]) :=
  ⟨rfl, C2_codec_roundtrip _ _ rfl⟩

/-- C10: put returns the length of the queue after the insertion, i.e. the
new list length of the store's list as returned by LPUSH. -/
theorem C10_put_returns_new_length (q : RedisQueue) (s : Store) (v : PyVal) (p : Payload)
    (h : pickle_dumps v = Except.ok p) :
    (q.put s v).1 = Except.ok (Store.llen (q.put s v).2 q.key) ∧
    Store.llen (q.put s v).2 q.key = Store.llen s q.key + 1 := by
  constructor
  · simp [RedisQueue.put, h, Store.lpush, Store.llen]
  · simp [RedisQueue.put, h, Store.lpush, Store.llen]

/-- C10 witness: put of a concrete value on a concrete store returns the
new length 1. -/
theorem C10_put_returns_new_length_witness :
    (RedisQueue.put { key := "q" } (fun _ => []) (PyVal.int 3)).1 =
      Except.ok (Store.llen (RedisQueue.put { key := "q" } (fun _ => []) (PyVal.int 3)).2 "q") ∧
    Store.llen (RedisQueue.put { key := "q" } (fun _ => []) (PyVal.int 3)).2 "q" =
      Store.llen (fun _ => []) "q" + 1 :=
  C10_put_returns_new_length { key := "q" } (fun _ => []) (PyVal.int 3) [Tok.tag 2, Tok.int 3] rfl

/-- C8: put and set encode fully in memory before any store operation:
when pickle.dumps fails, the error propagates and the queue list / the
map hash are both left unchanged. -/
theorem C8_encode_before_store (v : PyVal) (e : PyErr) (he : pickle_dumps v = Except.error e)
    (q : RedisQueue) (s : Store) (d : RedisDict) (h : HStore) (field : String) :
    q.put s v = (Except.error e, s) ∧ d.set h field v = (Except.error e, h) := by
  constructor
  · simp [RedisQueue.put, he]
  · simp [RedisDict.set, he]

/-- C8 witness: putting/setting a non-picklable resource fails at encoding
and leaves the concrete stores unchanged. -/
theorem C8_encode_before_store_witness :
    RedisQueue.put { key := "q" } (fun _ => []) (PyVal.resource 0) =
      (Except.error (PyErr.typeError "cannot pickle resource object"), fun _ => []) ∧
    RedisDict.set (RedisDict.init.set_db "exp1" "localhost" "") (fun _ => []) "x"
        (PyVal.resource 0) =
      (Except.error (PyErr.typeError "cannot pickle resource object"), fun _ => []) :=
  C8_encode_before_store (PyVal.resource 0) (PyErr.typeError "cannot pickle resource object")
    rfl { key := "q" } (fun _ => []) (RedisDict.init.set_db "exp1" "localhost" "")
    (fun _ => []) "x"

/-- C3 counterexample: a non-blocking get on a concrete empty queue does
not fail with the spec's QueueEmptyError — no such error class exists in
the code; the failure is a TypeError from pickle.loads(None). -/
theorem C3_counterexample :
    (RedisQueue.get { key := "q" } (fun _ => []) false Option.none).1 ≠
      GetResult.err PyErr.queueEmptyError := by
  simp [RedisQueue.get, Store.rpop, loads_py]

/-- C3 amended: non-blocking get on an empty queue performs a single RPOP,
which returns None, and then fails — but with the untyped TypeError that
pickle.loads raises on None, not with a QueueEmptyError; the store is
unchanged. -/
theorem C3_get_empty_raises_typeerror (q : RedisQueue) (s : Store) (hs : s q.key = []) :
    q.get s false Option.none =
      (GetResult.err (PyErr.typeError "a bytes-like object is required, not NoneType"), s) := by
  simp [RedisQueue.get, Store.rpop, hs, loads_py]

/-- C3 witness: the amended behavior at a concrete empty store. -/
theorem C3_get_empty_raises_typeerror_witness :
    RedisQueue.get { key := "q" } (fun _ => []) false Option.none =
      (GetResult.err (PyErr.typeError "a bytes-like object is required, not NoneType"),
        fun _ => []) :=
  C3_get_empty_raises_typeerror { key := "q" } (fun _ => []) rfl

/-- C4 counterexample: a blocking get with timeout 5 on a concrete queue
that stays empty does not fail with the spec's QueueTimeoutError — no such
error class exists in the code; the failure is a TypeError from
subscripting the None that brpop returns at expiry. -/
theorem C4_counterexample :
    (RedisQueue.get { key := "q" } (fun _ => []) true (some 5)).1 ≠
      GetResult.err PyErr.queueTimeoutError := by
  simp [RedisQueue.get]

/-- C4 amended: blocking get with a positive timeout on a queue that stays
empty for the whole timeout fails once brpop returns None — but with the
untyped TypeError raised by `element[1]` on None, not with a
QueueTimeoutError; the store is unchanged. -/
theorem C4_get_timeout_raises_typeerror (q : RedisQueue) (s : Store) (T : Nat)
    (hs : s q.key = []) (hT : 0 < T) :
    q.get s true (some T) =
      (GetResult.err (PyErr.typeError "NoneType object is not subscriptable"), s) := by
  obtain ⟨g, rfl⟩ : ∃ g, T = g + 1 := ⟨T - 1, by omega⟩
  simp [RedisQueue.get, hs]

/-- C4 witness: the amended behavior at a concrete empty store and
timeout 5. -/
theorem C4_get_timeout_raises_typeerror_witness :
    RedisQueue.get { key := "q" } (fun _ => []) true (some 5) =
      (GetResult.err (PyErr.typeError "NoneType object is not subscriptable"), fun _ => []) :=
  C4_get_timeout_raises_typeerror { key := "q" } (fun _ => []) 5 rfl (by omega)

/-- C5 counterexample: get on the just-initialised (unconfigured)
RedisDict does not fail with the spec's NotConfiguredError — no such error
class exists in the code; the failure is Python's AttributeError because
`self.r` does not exist before set_db. -/
theorem C5_counterexample :
    RedisDict.get RedisDict.init (fun _ => []) "x" ≠
      Except.error PyErr.notConfiguredError := by
  simp [RedisDict.get, RedisDict.init]

/-- C5 amended: every shared-map operation (set, get, get_dict) invoked
before set_db fails — not silently defaulting — but with AttributeError
(`self.r` missing), not with a NotConfiguredError; set leaves the hash
store unchanged. -/
theorem C5_unconfigured_raises_attributeerror (d : RedisDict) (h : HStore) (field : String)
    (v : PyVal) (p : Payload) (hr : d.r = Option.none) (hp : pickle_dumps v = Except.ok p) :
    d.get h field = Except.error (PyErr.attributeError attr_r_msg) ∧
    d.get_dict h = Except.error (PyErr.attributeError attr_r_msg) ∧
    d.set h field v = (Except.error (PyErr.attributeError attr_r_msg), h) := by
  refine ⟨?_, ?_, ?_⟩
  · simp [RedisDict.get, hr]
  · simp [RedisDict.get_dict, hr]
  · simp [RedisDict.set, hp, hr]

/-- C5 witness: the amended behavior on the concrete fresh RedisDict. -/
theorem C5_unconfigured_raises_attributeerror_witness :
    RedisDict.get RedisDict.init (fun _ => []) "x" =
      Except.error (PyErr.attributeError attr_r_msg) ∧
    RedisDict.get_dict RedisDict.init (fun _ => []) =
      Except.error (PyErr.attributeError attr_r_msg) ∧
    RedisDict.set RedisDict.init (fun _ => []) "x" (PyVal.int 1) =
      (Except.error (PyErr.attributeError attr_r_msg), fun _ => []) :=
  C5_unconfigured_raises_attributeerror RedisDict.init (fun _ => []) "x" (PyVal.int 1)
    [Tok.tag 2, Tok.int 1] rfl rfl

/-- C6: on a configured shared map, get checks field existence; an absent
field is reported with the diagnostic message and a null-equivalent (None)
is returned without raising; a present field yields the decoded stored
value. -/
theorem C6_get_field (d : RedisDict) (c : RedisConn) (h : HStore) (field : String)
    (hc : d.r = some c) :
    (hlookup (h d.exp_key) field = Option.none →
      d.get h field = Except.ok (PyVal.none,
        [field ++ " does not exist in Redis with the experiment " ++ exp_key_repr d.exp_key])) ∧
    (∀ p v, hlookup (h d.exp_key) field = some p → pickle_loads p = some v →
      d.get h field = Except.ok (v, [])) := by
  constructor
  · intro habs
    simp [RedisDict.get, hc, habs]
  · intro p v hp hv
    simp [RedisDict.get, hc, hp, hv]

/-- C6 witness: both halves at a concrete configured map — an absent field
returns None with the printed diagnostic, a present field returns the
decoded value. -/
theorem C6_get_field_witness :
    RedisDict.get (RedisDict.init.set_db "exp1" "localhost" "") (fun _ => []) "x" =
      Except.ok (PyVal.none,
        ["x" ++ " does not exist in Redis with the experiment " ++
          exp_key_repr (RedisDict.init.set_db "exp1" "localhost" "").exp_key]) ∧
    RedisDict.get (RedisDict.init.set_db "exp1" "localhost" "")
        (fun _ => [("x", [Tok.tag 2, Tok.int 7])]) "x" =
      Except.ok (PyVal.int 7, []) :=
  ⟨(C6_get_field (RedisDict.init.set_db "exp1" "localhost" "") _ (fun _ => []) "x" rfl).1 rfl,
   (C6_get_field (RedisDict.init.set_db "exp1" "localhost" "")
      _ (fun _ => [("x", [Tok.tag 2, Tok.int 7])]) "x" rfl).2
      [Tok.tag 2, Tok.int 7] (PyVal.int 7) rfl rfl⟩

/-- C7 counterexample: after putting the value 7 on a concrete empty
queue, peek (get_without_pop) does not return the pushed value — it
returns the raw encoded payload bytes undecoded. -/
theorem C7_counterexample :
    (RedisQueue.put { key := "q" } (fun _ => []) (PyVal.int 7)).2 "q" =
      [[Tok.tag 2, Tok.int 7]] ∧
    RedisQueue.get_without_pop { key := "q" }
        (RedisQueue.put { key := "q" } (fun _ => []) (PyVal.int 7)).2 =
      PyVal.bytes [Tok.tag 2, Tok.int 7] ∧
    PyVal.bytes [Tok.tag 2, Tok.int 7] ≠ PyVal.int 7 := by
  refine ⟨rfl, rfl, ?_⟩
  intro hcontr
  exact PyVal.noConfusion hcontr

/-- C7 amended: get_without_pop returns the tail element's raw encoded
payload (the undecoded bytes from LINDEX key -1) when the queue is
non-empty — not the decoded value — and returns None when the queue is
empty; it only reads (LLEN and LINDEX), so the queue contents are
unchanged, which the model reflects by returning no updated store. -/
theorem C7_peek_returns_raw_payload (q : RedisQueue) (s : Store) :
    (s q.key = [] → q.get_without_pop s = PyVal.none) ∧
    (∀ ps p, s q.key = ps ++ [p] → q.get_without_pop s = PyVal.bytes p) := by
  constructor
  · intro hs
    simp [RedisQueue.get_without_pop, RedisQueue.is_empty, RedisQueue.size, Store.llen, hs]
  · intro ps p hs
    simp [RedisQueue.get_without_pop, RedisQueue.is_empty, RedisQueue.size, Store.llen,
      Store.lindex_last, hs]

/-- C7 witness: peek on a concrete empty queue returns None; peek on a
concrete one-element queue returns that element's payload as bytes. -/
theorem C7_peek_returns_raw_payload_witness :
    RedisQueue.get_without_pop { key := "q" } (fun _ => []) = PyVal.none ∧
    RedisQueue.get_without_pop { key := "q" } (fun _ => [[Tok.tag 2, Tok.int 7]]) =
      PyVal.bytes [Tok.tag 2, Tok.int 7] :=
  ⟨(C7_peek_returns_raw_payload { key := "q" } (fun _ => [])).1 rfl,
   (C7_peek_returns_raw_payload { key := "q" } (fun _ => [[Tok.tag 2, Tok.int 7]])).2
      [] [Tok.tag 2, Tok.int 7] rfl⟩

/-- C9: two independent acquisitions of the singleton-decorated shared map
yield the same underlying instance — at most one instance exists — so a
write performed through the first handle is immediately observed through
the second handle (same connection and namespace). -/
theorem C9_singleton_shared_instance (mk : Unit → RedisDict) (h : HStore)
    (field : String) (v : PyVal) (p : Payload) (ek host pw : String)
    (hp : pickle_dumps v = Except.ok p) :
    (acquireTwice mk).1 = (acquireTwice mk).2 ∧
    RedisDict.get ((acquireTwice mk).2.set_db ek host pw)
        (RedisDict.set ((acquireTwice mk).1.set_db ek host pw) h field v).2 field =
      Except.ok (v, []) := by
  have hsame : (acquireTwice mk).1 = (acquireTwice mk).2 := by
    simp [acquireTwice, get_instance]
  refine ⟨hsame, ?_⟩
  rw [← hsame]
  have hr : ((acquireTwice mk).1.set_db ek host pw).r =
      some { host := host, password := pw, port := 6379 } := by
    simp [RedisDict.set_db]
  have hset : (RedisDict.set ((acquireTwice mk).1.set_db ek host pw) h field v).2 =
      fun k2 => if k2 = ((acquireTwice mk).1.set_db ek host pw).exp_key then
        hset_assoc (h k2) field p else h k2 := by
    simp [RedisDict.set, hp, hr]
  rw [hset]
  simp [RedisDict.get, hr, hlookup_hset_assoc, loads_dumps v p hp]

/-- C9 witness: the singleton and write-visibility property at concrete
inputs. -/
theorem C9_singleton_shared_instance_witness :
    (acquireTwice (fun _ => RedisDict.init)).1 = (acquireTwice (fun _ => RedisDict.init)).2 ∧
    RedisDict.get ((acquireTwice (fun _ => RedisDict.init)).2.set_db "exp1" "localhost" "")
        (RedisDict.set ((acquireTwice (fun _ => RedisDict.init)).1.set_db "exp1" "localhost" "")
          (fun _ => []) "x" (PyVal.str "a")).2 "x" =
      Except.ok (PyVal.str "a", []) :=
  C9_singleton_shared_instance (fun _ => RedisDict.init) (fun _ => []) "x" (PyVal.str "a")
    [Tok.tag 3, Tok.str "a"] "exp1" "localhost" "" rfl

/-- Helper for C1: put with a successfully encoded payload returns the new
length and prepends the payload to the list at the queue's key. -/
theorem put_step (q : RedisQueue) (s : Store) (v : PyVal) (p : Payload) (k : String)
    (hk : q.key = k) (hv : pickle_dumps v = Except.ok p) :
    (q.put s v).1 = Except.ok ((s k).length + 1) ∧
    (q.put s v).2 k = p :: s k := by
  subst hk
  constructor
  · simp [RedisQueue.put, hv, Store.lpush]
  · simp [RedisQueue.put, hv, Store.lpush]

/-- Helper for C1: a non-blocking get on a queue whose list ends in a
decodable payload returns its decoded value and leaves the remaining
prefix at the key. -/
theorem get_step (q : RedisQueue) (s : Store) (ps : List Payload) (p : Payload) (v : PyVal)
    (hs : s q.key = ps ++ [p]) (hv : pickle_loads p = some v) :
    (q.get s false Option.none).1 = GetResult.ok v ∧
    (q.get s false Option.none).2 q.key = ps := by
  have hlast : (s q.key).getLast? = some p := by
    rw [hs]
    simp
  constructor
  · simp [RedisQueue.get, Store.rpop, hlast, loads_py, hv]
  · simp [RedisQueue.get, Store.rpop, hlast, loads_py, hv, hs]

/-- C1: strict FIFO — pushing v1, v2, v3 in that order through any three
queue handles sharing one key (put = LPUSH at the head), then performing
three successive non-blocking gets through a fourth handle on that key
(get = RPOP from the tail), returns v1, v2, v3 in that order. -/
theorem C1_queue_fifo (k : String) (q1 q2 q3 qc : RedisQueue)
    (hk1 : q1.key = k) (hk2 : q2.key = k) (hk3 : q3.key = k) (hkc : qc.key = k)
    (s : Store) (hs : s k = [])
    (v1 v2 v3 : PyVal) (p1 p2 p3 : Payload)
    (e1 : pickle_dumps v1 = Except.ok p1) (e2 : pickle_dumps v2 = Except.ok p2)
    (e3 : pickle_dumps v3 = Except.ok p3) :
    (qc.get (q3.put (q2.put (q1.put s v1).2 v2).2 v3).2 false Option.none).1 =
      GetResult.ok v1 ∧
    (qc.get (qc.get (q3.put (q2.put (q1.put s v1).2 v2).2 v3).2 false Option.none).2
        false Option.none).1 = GetResult.ok v2 ∧
    (qc.get (qc.get (qc.get (q3.put (q2.put (q1.put s v1).2 v2).2 v3).2 false Option.none).2
          false Option.none).2 false Option.none).1 = GetResult.ok v3 := by
  have c1 : (q1.put s v1).2 k = p1 :: s k := (put_step q1 s v1 p1 k hk1 e1).2
  have c2 : (q2.put (q1.put s v1).2 v2).2 k = p2 :: p1 :: s k := by
    rw [(put_step q2 _ v2 p2 k hk2 e2).2, c1]
  have c3 : (q3.put (q2.put (q1.put s v1).2 v2).2 v3).2 k = [p3, p2, p1] := by
    rw [(put_step q3 _ v3 p3 k hk3 e3).2, c2, hs]
  have c3c : (q3.put (q2.put (q1.put s v1).2 v2).2 v3).2 qc.key = [p3, p2] ++ [p1] := by
    rw [hkc, c3]
    rfl
  have g1 := get_step qc _ [p3, p2] p1 v1 c3c (loads_dumps v1 p1 e1)
  have g1c : (qc.get (q3.put (q2.put (q1.put s v1).2 v2).2 v3).2 false Option.none).2 qc.key =
      [p3] ++ [p2] := g1.2
  have g2 := get_step qc _ [p3] p2 v2 g1c (loads_dumps v2 p2 e2)
  have g2c : (qc.get (qc.get (q3.put (q2.put (q1.put s v1).2 v2).2 v3).2 false
      Option.none).2 false Option.none).2 qc.key = [] ++ [p3] := g2.2
  have g3 := get_step qc _ [] p3 v3 g2c (loads_dumps v3 p3 e3)
  exact ⟨g1.1, g2.1, g3.1⟩

/-- C1 witness: three concrete puts of 1, 2, 3 through handles sharing the
key, then three concrete gets returning 1, 2, 3 in order. -/
theorem C1_queue_fifo_witness :
    (RedisQueue.get { key := "jobs" }
        (RedisQueue.put { key := "jobs" }
          (RedisQueue.put { key := "jobs" }
            (RedisQueue.put { key := "jobs" } (fun _ => []) (PyVal.int 1)).2
            (PyVal.int 2)).2
          (PyVal.int 3)).2 false Option.none).1 = GetResult.ok (PyVal.int 1) ∧
    (RedisQueue.get { key := "jobs" }
        (RedisQueue.get { key := "jobs" }
          (RedisQueue.put { key := "jobs" }
            (RedisQueue.put { key := "jobs" }
              (RedisQueue.put { key := "jobs" } (fun _ => []) (PyVal.int 1)).2
              (PyVal.int 2)).2
            (PyVal.int 3)).2 false Option.none).2 false Option.none).1 =
      GetResult.ok (PyVal.int 2) ∧
    (RedisQueue.get { key := "jobs" }
        (RedisQueue.get { key := "jobs" }
          (RedisQueue.get { key := "jobs" }
            (RedisQueue.put { key := "jobs" }
              (RedisQueue.put { key := "jobs" }
                (RedisQueue.put { key := "jobs" } (fun _ => []) (PyVal.int 1)).2
                (PyVal.int 2)).2
              (PyVal.int 3)).2 false Option.none).2 false Option.none).2
        false Option.none).1 = GetResult.ok (PyVal.int 3) :=
  C1_queue_fifo "jobs" { key := "jobs" } { key := "jobs" } { key := "jobs" } { key := "jobs" }
    rfl rfl rfl rfl (fun _ => []) rfl (PyVal.int 1) (PyVal.int 2) (PyVal.int 3)
    [Tok.tag 2, Tok.int 1] [Tok.tag 2, Tok.int 2] [Tok.tag 2, Tok.int 3] rfl rfl rfl
